import Mathlib

/-!
# Verification of the WhatsApp MCP bridge against its specification

Shallow embedding of the message-store, ingestion, media, webhook and
migration logic of the `whatsapp-mcp` repository, together with theorems
settling the specification claims about it.

Conventions:
* SQLite rows are Lean structures; tables are Lean lists with at most one
  row per primary key (maintained by the upsert functions themselves).
* Timestamps are `Int` (whole seconds since the Unix epoch, as stored).
* Go strings are Lean `String`s; the protocol message identifiers sliced by
  the media code are ASCII, so Go's byte length coincides with `String.length`.
* Fallible Go functions return `Except String`; a Go panic is modelled as
  `Option.none` of the affected operation.
-/

/-! ## Chat rows and `SaveChat` (storage/chats.go, `storage.Chat` / `SaveChat`) -/

/-- A row of the `chats` table (`storage.Chat`). -/
structure Chat where
  jid : String
  pushName : String
  contactName : String
  lastMessageTime : Int
  unreadCount : Int
  isGroup : Bool
deriving Repr, DecidableEq

/-- `COALESCE(NULLIF(excluded.col, ''), chats.col)`: a new non-empty value
replaces the stored one, an empty new value keeps the stored one. -/
def coalesceNonEmpty (stored excluded : String) : String :=
  if excluded = "" then stored else excluded

/-- The `ON CONFLICT(jid) DO UPDATE` clause of `SaveChat`: names are merged
with `coalesceNonEmpty`; `last_message_time`, `unread_count` and `is_group`
are overwritten with the excluded (new) values. -/
def mergeChat (stored c : Chat) : Chat :=
  { jid := stored.jid
    pushName := coalesceNonEmpty stored.pushName c.pushName
    contactName := coalesceNonEmpty stored.contactName c.contactName
    lastMessageTime := c.lastMessageTime
    unreadCount := c.unreadCount
    isGroup := c.isGroup }

/-- `INSERT ... ON CONFLICT(jid) DO UPDATE` on the `chats` table: replace the
row with the matching primary key using `mergeChat`, or append a fresh row. -/
def upsertChat : List Chat → Chat → List Chat
  | [], c => [c]
  | r :: rs, c => if r.jid = c.jid then mergeChat r c :: rs else r :: upsertChat rs c

/-- `SaveChat` (storage/chats.go): reject an empty canonical JID, otherwise
upsert the row. -/
def saveChat (db : List Chat) (c : Chat) : Except String (List Chat) :=
  if c.jid = "" then .error "chat JID cannot be empty" else .ok (upsertChat db c)

/-- A finite sequence of `SaveChat` calls, stopping at the first error. -/
def saveChatAll (db : List Chat) (cs : List Chat) : Except String (List Chat) :=
  cs.foldlM saveChat db

/-- `GetChatByJID`: the row of the `chats` table with the given canonical JID. -/
def getChatByJID (db : List Chat) (jid : String) : Option Chat :=
  db.find? (fun c => c.jid == jid)

/-- The chat row stored for `jid` after running a sequence of `SaveChat`
calls against an initially empty `chats` table. -/
def finalChatRow (cs : List Chat) (jid : String) : Option Chat :=
  match saveChatAll [] cs with
  | .error _ => none
  | .ok db => getChatByJID db jid

/-- The value the spec assigns to a merged name field: the last non-empty
value supplied in the sequence, or the initially supplied value when no
non-empty value was ever supplied. -/
def specMergedName (vals : List String) : String :=
  match vals.reverse.find? (fun v => v != "") with
  | some v => v
  | none => vals.headD ""

/-- The maximum of the supplied `last_message_time` values of a sequence
of chat upserts (the spec's merge value for that field). -/
def specMaxTime (cs : List Chat) : Int :=
  match cs.map Chat.lastMessageTime with
  | [] => 0
  | t :: ts => ts.foldl max t

/-! ## SQLite `LIKE` matching and `ORDER BY ... DESC`

`SearchChats` and the message searches run SQL of the shape
`WHERE col LIKE '%' || q || '%' ... ORDER BY ts DESC LIMIT n`.
SQLite's `LIKE` is case-insensitive for ASCII; `%` matches any run of
characters and `_` exactly one. -/

/-- All suffixes of a character list (longest first, ending with `[]`). -/
def tailsList : List Char → List (List Char)
  | [] => [[]]
  | c :: t => (c :: t) :: tailsList t

/-- SQLite `LIKE` pattern matching over characters: `%` matches any run,
`_` any single character, anything else itself up to ASCII case. -/
def likeMatch : List Char → List Char → Bool
  | [], s => s.isEmpty
  | p :: ps, s =>
    if p = '%' then (tailsList s).any (fun t => likeMatch ps t)
    else
      match s with
      | [] => false
      | c :: s' =>
        if p = '_' then likeMatch ps s'
        else (p.toLower == c.toLower) && likeMatch ps s'

/-- SQLite `LIKE` on strings. -/
def likeStr (pat s : String) : Bool := likeMatch pat.data s.data

/-- Insert into a list sorted by `key` in descending order (the ordering a
SQL `ORDER BY key DESC` produces). -/
def insertDescBy (key : α → Int) (a : α) : List α → List α
  | [] => [a]
  | b :: bs => if key b < key a then a :: b :: bs else b :: insertDescBy key a bs

/-- Sort a list by `key` in descending order (insertion sort). -/
def sortDescBy (key : α → Int) (l : List α) : List α :=
  l.foldr (insertDescBy key) []

/-! ## Messages and the cross-chat search (storage/messages.go) -/

/-- A row of the `media_metadata` table (`storage.MediaMetadata`). The four
protocol blobs are opaque byte strings. -/
structure MediaMetadata where
  messageID : String
  fileName : String
  fileSize : Int
  mimeType : String
  width : Option Int
  height : Option Int
  duration : Option Int
  mediaKey : String
  directPath : String
  fileSHA256 : String
  fileEncSHA256 : String
  filePath : String
  downloadStatus : String
  downloadTimestamp : Option Int
  downloadError : String
deriving Repr, DecidableEq

/-- A row of the `messages_with_names` view (`storage.MessageWithNames`):
a message joined with its display names. The webhook-side variant of the
struct additionally carries an optional pointer to the message's media
metadata, used when building payloads. -/
structure MessageWithNames where
  id : String
  chatJID : String
  senderJID : String
  senderPushName : String
  senderContactName : String
  chatName : String
  text : String
  timestamp : Int
  isFromMe : Bool
  messageType : String
  mediaMetadata : Option MediaMetadata
deriving Repr, DecidableEq

/-- `SearchMessagesWithNames` (storage/messages.go):
`SELECT ... FROM messages_with_names WHERE text LIKE '%'||q||'%'
ORDER BY timestamp DESC LIMIT lim`. The only filter is on `text`; there is
no sender parameter. -/
def searchMessagesWithNames (q : String) (lim : Nat) (db : List MessageWithNames) :
    List MessageWithNames :=
  (sortDescBy (fun m => m.timestamp)
    (db.filter (fun m => likeStr ("%" ++ q ++ "%") m.text))).take lim

/-- The result set the C2 claim demands of a sender-filtered search: exactly
the messages whose `sender_jid` is `J`, ordered by timestamp descending. -/
def messagesFromSender (J : String) (db : List MessageWithNames) :
    List MessageWithNames :=
  sortDescBy (fun m => m.timestamp) (db.filter (fun m => m.senderJID == J))

/-! ## Chat search and `find_chat` (mcp/handlers.go, storage `SearchChats`) -/

/-- The `WHERE` clause of `SearchChats`:
`push_name LIKE ? OR contact_name LIKE ? OR jid LIKE ?`. -/
def chatMatchesLike (pat : String) (c : Chat) : Bool :=
  likeStr pat c.pushName || likeStr pat c.contactName || likeStr pat c.jid

/-- `SearchChats` (storage, chats file): substring `LIKE` search over
`push_name`, `contact_name` and `jid`, newest chats first. -/
def searchChats (search : String) (lim : Nat) (db : List Chat) : List Chat :=
  (sortDescBy (fun c => c.lastMessageTime)
    (db.filter (chatMatchesLike ("%" ++ search ++ "%")))).take lim

/-- `handleFindChat` (mcp/handlers.go): the `find_chat` tool delegates to
`SearchChats` with a fixed limit of 100. -/
def handleFindChat (search : String) (db : List Chat) : List Chat :=
  searchChats search 100 db

/-- Case-insensitive (ASCII) prefix test, for stating what a substring
match means. -/
def startsWithCI : List Char → List Char → Bool
  | [], _ => true
  | _ :: _, [] => false
  | a :: as, b :: bs => (a.toLower == b.toLower) && startsWithCI as bs

/-- Case-insensitive (ASCII) substring test over characters. -/
def substrCI (needle : List Char) : List Char → Bool
  | [] => needle.isEmpty
  | c :: t => startsWithCI needle (c :: t) || substrCI needle t

/-- Case-insensitive substring match on strings (the spec's default
`find_chat` semantics). -/
def containsCI (needle s : String) : Bool := substrCI needle.data s.data

/-- A pattern free of the SQL `LIKE` metacharacters `%` and `_` (every
`find_chat` glob example, e.g. `"Tech*"`, is of this form). -/
def noLikeMeta (s : String) : Prop := ∀ c ∈ s.data, c ≠ '%' ∧ c ≠ '_'

instance (s : String) : Decidable (noLikeMeta s) := by
  unfold noLikeMeta; infer_instance

/-- The spec-side chat predicate for `find_chat`'s default mode: the pattern
occurs case-insensitively in `push_name`, `contact_name` or `jid`. -/
def chatMatchesCI (needle : String) (c : Chat) : Bool :=
  containsCI needle c.pushName || containsCI needle c.contactName ||
    containsCI needle c.jid

/-- The three chats of the glob-search scenario (spec §8, scenario 6). -/
def findChatExample : List Chat :=
  [⟨"111@g.us", "Tech Team", "", 300, 0, true⟩,
   ⟨"222@g.us", "tech team", "", 200, 0, true⟩,
   ⟨"333@s.whatsapp.net", "Support", "", 100, 0, false⟩]

/-- A two-sender message table used to probe the cross-chat search. -/
def c2ExampleDB : List MessageWithNames :=
  [⟨"M1", "alice@s.whatsapp.net", "alice@s.whatsapp.net", "Alice", "", "Alice",
      "hi", 1, false, "text", none⟩,
   ⟨"M2", "bob@s.whatsapp.net", "bob@s.whatsapp.net", "Bob", "", "Bob",
      "yo", 2, false, "text", none⟩]

/-! ## Webhook manager (webhook/webhook.go, webhook config file)

`EmitMessageEvent` queries the active webhooks, builds one payload and
enqueues one delivery task per subscribed webhook; a full queue drops the
task (never blocking ingestion) without changing any payload. Generation of
a fresh UUID (`uuid.New()`) and the wall clock (`time.Now()`) are passed in
as the `freshUUID` and `now` parameters. -/

/-- A row of the webhook registration store (`storage.WebhookRegistration`). -/
structure WebhookRegistration where
  id : String
  url : String
  secret : String
  eventTypes : List String
  active : Bool
  createdAt : Int
  updatedAt : Int
deriving Repr, DecidableEq

/-- The media block of a webhook payload (`webhook.MediaReference`). -/
structure MediaReference where
  messageID : String
  fileName : String
  fileSize : Int
  mimeType : String
  hasMedia : Bool
deriving Repr, DecidableEq

/-- The `data` object of a webhook payload (`webhook.MessageEventData`). -/
structure MessageEventData where
  messageID : String
  chatJID : String
  senderJID : String
  text : String
  timestamp : Int
  isFromMe : Bool
  messageType : String
  chatName : String
  senderPushName : String
  senderContactName : String
  isGroup : Bool
  mediaMetadata : Option MediaReference
deriving Repr, DecidableEq

/-- A webhook payload (`webhook.WebhookPayload`). -/
structure WebhookPayload where
  id : String
  eventType : String
  timestamp : Int
  data : MessageEventData
deriving Repr, DecidableEq

/-- A queued delivery job (`webhook.deliveryTask`). -/
structure DeliveryTask where
  webhook : WebhookRegistration
  payload : WebhookPayload
  attempt : Nat
deriving Repr, DecidableEq

/-- `contains` (webhook/webhook.go): linear scan of a string slice. -/
def containsStr : List String → String → Bool
  | [], _ => false
  | s :: rest, item => if s = item then true else containsStr rest item

/-- Case-sensitive prefix test over characters (for `strings.Contains`). -/
def startsWithCS : List Char → List Char → Bool
  | [], _ => true
  | _ :: _, [] => false
  | a :: as, b :: bs => (a == b) && startsWithCS as bs

/-- Case-sensitive substring test over characters. -/
def substrCS (needle : List Char) : List Char → Bool
  | [] => needle.isEmpty
  | c :: t => startsWithCS needle (c :: t) || substrCS needle t

/-- Go's `strings.Contains(s, sub)`. -/
def goStringContains (s sub : String) : Bool := substrCS sub.data s.data

/-- `buildMessagePayload` (webhook/webhook.go): event type from `IsFromMe`,
`is_group` derived from the chat JID containing `"@g.us"`, media block when
the message carries media metadata; `id` is the freshly generated UUID and
`timestamp` the generation time. -/
def buildMessagePayload (msg : MessageWithNames) (freshUUID : String)
    (now : Int) : WebhookPayload :=
  let eventType := if msg.isFromMe then "message.sent" else "message.received"
  let mediaRef := msg.mediaMetadata.map fun md =>
    ({ messageID := md.messageID
       fileName := md.fileName
       fileSize := md.fileSize
       mimeType := md.mimeType
       hasMedia := md.filePath != "" } : MediaReference)
  { id := freshUUID
    eventType := eventType
    timestamp := now
    data :=
      { messageID := msg.id
        chatJID := msg.chatJID
        senderJID := msg.senderJID
        text := msg.text
        timestamp := msg.timestamp
        isFromMe := msg.isFromMe
        messageType := msg.messageType
        chatName := msg.chatName
        senderPushName := msg.senderPushName
        senderContactName := msg.senderContactName
        isGroup := goStringContains msg.chatJID "@g.us"
        mediaMetadata := mediaRef } }

/-- `EmitMessageEvent` (webhook/webhook.go): list the active webhooks, build
the payload ONCE (before the loop), then enqueue one task (attempt 1) per
webhook subscribed to `"message"`. The returned list is the sequence of
tasks offered to the delivery channel. -/
def emitMessageEvent (webhooks : List WebhookRegistration)
    (msg : MessageWithNames) (freshUUID : String) (now : Int) :
    List DeliveryTask :=
  let active := webhooks.filter fun w => w.active
  let payload := buildMessagePayload msg freshUUID now
  (active.filter fun w => containsStr w.eventTypes "message").map
    fun w => { webhook := w, payload := payload, attempt := 1 }

/-- The webhook configuration (`webhook.Config`). Durations in seconds. -/
structure WebhookConfig where
  primaryURL : String
  maxRetries : Int
  retryBackoffSecs : List Int
  deliveryTimeoutSecs : Int
  workerPoolSize : Int
  channelBufferSize : Nat
deriving Repr, DecidableEq

/-- `config.GetEnvInt`: the parsed value of the environment variable, or the
default when the variable is unset or unparsable (modelled as `none`). -/
def getEnvIntOr (parsed : Option Int) (defaultVal : Int) : Int :=
  parsed.getD defaultVal

/-- `LoadConfig` (webhook config file): backoff table `[0, 5s, 15s]`;
`MaxRetries` from `WEBHOOK_MAX_RETRIES` (default 3) capped ABOVE at the
backoff-table length (values ≤ 0 are not rejected). -/
def loadConfig (envURL : String)
    (envMaxRetries envTimeout envPool : Option Int) : WebhookConfig :=
  let retryBackoff : List Int := [0, 5, 15]
  let maxRetries0 := getEnvIntOr envMaxRetries 3
  let maxRetries :=
    if maxRetries0 > (retryBackoff.length : Int) then (retryBackoff.length : Int)
    else maxRetries0
  { primaryURL := envURL
    maxRetries := maxRetries
    retryBackoffSecs := retryBackoff
    deliveryTimeoutSecs := getEnvIntOr envTimeout 10
    workerPoolSize := getEnvIntOr envPool 3
    channelBufferSize := 100 }

/-- The number of delivery attempts recorded for one (webhook, event) task
chain, starting at attempt `a`. Each pass of `worker` delivers once (and
`deliverWebhook` records exactly one `DeliveryAttempt`, successful or not);
a retry is enqueued only while `attempt < MaxRetries` and
`attempt < len(RetryBackoff)`. `succeeds n` tells whether the `n`-th
delivery attempt succeeds. -/
def deliveryAttemptsFrom (cfg : WebhookConfig) (succeeds : Nat → Bool)
    (a : Nat) : Nat :=
  if succeeds a then 1
  else if h : (a : Int) < cfg.maxRetries ∧
      (a : Int) < (cfg.retryBackoffSecs.length : Int) then
    1 + deliveryAttemptsFrom cfg succeeds (a + 1)
  else 1
termination_by cfg.retryBackoffSecs.length - a
decreasing_by
  omega

/-- Total delivery attempts recorded for a (webhook, event) pair: the task
is enqueued by `EmitMessageEvent` with attempt 1. -/
def deliveryAttempts (cfg : WebhookConfig) (succeeds : Nat → Bool) : Nat :=
  deliveryAttemptsFrom cfg succeeds 1

/-- An active webhook subscribed to message events. -/
def c4Webhook1 : WebhookRegistration :=
  ⟨"wh-1", "https://a.example/hook", "", ["message"], true, 0, 0⟩

/-- A second active webhook subscribed to message events. -/
def c4Webhook2 : WebhookRegistration :=
  ⟨"wh-2", "https://b.example/hook", "", ["message"], true, 0, 0⟩

/-- An enriched message as handed to the webhook manager. -/
def c4ExampleMessage : MessageWithNames :=
  ⟨"M1", "5511999999999@s.whatsapp.net", "5511999999999@s.whatsapp.net",
    "Maria", "", "Maria", "hi", 1735639200, false, "text", none⟩

/-! ## Media download retry and status (whatsapp/media.go, whatsapp/handlers.go) -/

/-- An error from the protocol library's media download. `e404`/`e410` are
whatsmeow's `ErrMediaDownloadFailedWith404` / `...410` sentinel errors; their
`Error()` strings are the library's fixed texts given in
`downloadErrMessage`. -/
inductive DownloadErr where
  | e404
  | e410
  | other (msg : String)
deriving Repr, DecidableEq

/-- `err.Error()` for a download error. The 404/410 texts are the ones the
protocol library (whatsmeow) attaches to its sentinel errors. -/
def downloadErrMessage : DownloadErr → String
  | .e404 => "download failed with status code 404"
  | .e410 => "download failed with status code 410"
  | .other m => m

/-- The `errors.Is(err, ErrMediaDownloadFailedWith404/410)` test of
`downloadMediaWithRetry`. -/
def isGoneErr : DownloadErr → Bool
  | .e404 => true
  | .e410 => true
  | .other _ => false

/-- The attempt loop of `downloadMediaWithRetry` (whatsapp/media.go):
`maxRetries = 3`; each failed attempt appends to the error trail; a
404/410 "resource gone" error returns immediately (no retry); exhausting
the attempts returns the concatenated error trail. `outcome n` is the
result of the `n`-th download attempt (`none` = success). Returns the
number of the final attempt made and the returned error, if any. -/
def downloadMediaAttempts (outcome : Nat → Option DownloadErr) (a : Nat)
    (allErrors : List String) : Nat × Option DownloadErr :=
  match outcome a with
  | none => (a, none)
  | some e =>
    let allErrors :=
      allErrors ++ ["attempt " ++ toString a ++ ": " ++ downloadErrMessage e]
    if isGoneErr e then (a, some e)
    else if h : a < 3 then downloadMediaAttempts outcome (a + 1) allErrors
    else (a, some (.other ("download failed after 3 attempts: " ++
      String.intercalate "; " allErrors)))
termination_by 3 - a
decreasing_by
  omega

/-- `downloadMediaWithRetry`: attempts start at 1 with an empty error trail. -/
def downloadMediaWithRetry (outcome : Nat → Option DownloadErr) :
    Nat × Option DownloadErr :=
  downloadMediaAttempts outcome 1 []

/-- The `download_status` the message handler (whatsapp/handlers.go) writes
after the download goroutine finishes: `"downloaded"` on success, else
`"expired"` when `err.Error() == "media expired or deleted"`, otherwise
`"failed"`. -/
def mediaStatusAfterDownload (result : Option DownloadErr) : String :=
  match result with
  | none => "downloaded"
  | some e =>
    if downloadErrMessage e = "media expired or deleted" then "expired"
    else "failed"

/-! ## Media metadata extraction (whatsapp/media.go `extractMediaMetadata`) -/

/-- The media auto-download configuration (`whatsapp.MediaConfig`). -/
structure MediaConfig where
  autoDownloadEnabled : Bool
  autoDownloadFromHistory : Bool
  autoDownloadMaxSize : Int
  autoDownloadTypes : List String
  storagePath : String
deriving Repr, DecidableEq

/-- `shouldAutoDownload` (whatsapp/media.go): enabled, type in the
allow-list, and size within the limit (0 = unlimited). -/
def shouldAutoDownload (cfg : MediaConfig) (mediaType : String)
    (fileSize : Int) : Bool :=
  if !cfg.autoDownloadEnabled then false
  else if !(cfg.autoDownloadTypes.contains mediaType) then false
  else if cfg.autoDownloadMaxSize > 0 && fileSize > cfg.autoDownloadMaxSize then
    false
  else true

/-- `getInitialDownloadStatus` (whatsapp/media.go): history-sourced media is
gated by `AutoDownloadFromHistory`; otherwise `pending` when the filter
applies, else `skipped`. -/
def getInitialDownloadStatus (cfg : MediaConfig) (mediaType : String)
    (fileSize : Int) (fromHistory : Bool) : String :=
  if fromHistory && !cfg.autoDownloadFromHistory then "skipped"
  else if shouldAutoDownload cfg mediaType fileSize then "pending"
  else "skipped"

/-- Go string slicing `s[:n]`: defined only when `n ≤ len(s)`, otherwise the
program panics (modelled as `none`). Protocol message IDs are ASCII, so the
byte length is the character count. -/
def goSlicePre (s : String) (n : Nat) : Option String :=
  if n ≤ s.length then some ⟨s.data.take n⟩ else none

/-- Go `s[:min(n, len(s))]` — the guarded slice the image and video
branches use. -/
def goSliceMin (s : String) (n : Nat) : String :=
  ⟨s.data.take (min n s.length)⟩

/-- The opaque protocol blobs carried by every media descriptor. -/
structure MediaBlobs where
  mediaKey : String
  directPath : String
  fileSHA256 : String
  fileEncSHA256 : String
deriving Repr, DecidableEq

/-- The media descriptor found in a message (which of
`GetStickerMessage`/`GetImageMessage`/… is non-nil, with its fields). -/
inductive MediaContent where
  | sticker (blobs : MediaBlobs) (fileLength : Int) (mime : String)
      (width height : Int)
  | image (blobs : MediaBlobs) (fileLength : Int) (mime : String)
      (width height : Int)
  | video (blobs : MediaBlobs) (fileLength : Int) (mime : String)
      (width height seconds : Int)
  | audio (blobs : MediaBlobs) (fileLength : Int) (mime : String)
      (seconds : Int) (ptt : Bool)
  | document (blobs : MediaBlobs) (fileLength : Int) (mime : String)
      (docName : String)
  | noMedia
deriving Repr, DecidableEq

/-- `mimeToExtension` (whatsapp/media.go): fixed table, then a fallback
using the MIME subtype. -/
def mimeToExtension (mime : String) : String :=
  if mime = "image/jpeg" then ".jpg"
  else if mime = "image/jpg" then ".jpg"
  else if mime = "image/png" then ".png"
  else if mime = "image/gif" then ".gif"
  else if mime = "image/webp" then ".webp"
  else if mime = "video/mp4" then ".mp4"
  else if mime = "video/3gpp" then ".3gp"
  else if mime = "video/quicktime" then ".mov"
  else if mime = "audio/ogg" then ".ogg"
  else if mime = "audio/mpeg" then ".mp3"
  else if mime = "audio/mp4" then ".m4a"
  else if mime = "audio/aac" then ".aac"
  else if mime = "application/pdf" then ".pdf"
  else if mime = "application/zip" then ".zip"
  else if mime = "text/plain" then ".txt"
  else
    let parts := mime.splitOn "/"
    if parts.length = 2 then "." ++ parts.getD 1 "" else ""

/-- `extractMediaMetadata` (whatsapp/media.go). The outer `Option` records
panic-freedom: the sticker, audio and (empty-name) document branches slice
`messageID[:8]` without a bounds check, while the image and video branches
guard with `min(8, len(messageID))`. `none` of the outer option = panic. -/
def extractMediaMetadata (cfg : MediaConfig) (content : MediaContent)
    (messageID : String) (fromHistory : Bool) : Option (Option MediaMetadata) :=
  match content with
  | .noMedia => some none
  | .sticker blobs fl mime w ht =>
    (goSlicePre messageID 8).map fun p =>
      some { messageID := messageID
             fileName := "sticker_" ++ p ++ ".webp"
             fileSize := fl
             mimeType := mime
             width := some w
             height := some ht
             duration := none
             mediaKey := blobs.mediaKey
             directPath := blobs.directPath
             fileSHA256 := blobs.fileSHA256
             fileEncSHA256 := blobs.fileEncSHA256
             filePath := ""
             downloadStatus := getInitialDownloadStatus cfg "sticker" fl fromHistory
             downloadTimestamp := none
             downloadError := "" }
  | .image blobs fl mime w ht =>
    some (some
      { messageID := messageID
        fileName := "image_" ++ goSliceMin messageID 8 ++ ".jpg"
        fileSize := fl
        mimeType := mime
        width := some w
        height := some ht
        duration := none
        mediaKey := blobs.mediaKey
        directPath := blobs.directPath
        fileSHA256 := blobs.fileSHA256
        fileEncSHA256 := blobs.fileEncSHA256
        filePath := ""
        downloadStatus := getInitialDownloadStatus cfg "image" fl fromHistory
        downloadTimestamp := none
        downloadError := "" })
  | .video blobs fl mime w ht secs =>
    some (some
      { messageID := messageID
        fileName := "video_" ++ goSliceMin messageID 8 ++ ".mp4"
        fileSize := fl
        mimeType := mime
        width := some w
        height := some ht
        duration := some secs
        mediaKey := blobs.mediaKey
        directPath := blobs.directPath
        fileSHA256 := blobs.fileSHA256
        fileEncSHA256 := blobs.fileEncSHA256
        filePath := ""
        downloadStatus := getInitialDownloadStatus cfg "video" fl fromHistory
        downloadTimestamp := none
        downloadError := "" })
  | .audio blobs fl mime secs ptt =>
    let base := if ptt then "voice_note.ogg" else "audio.ogg"
    let mediaType := if ptt then "ptt" else "audio"
    (goSlicePre messageID 8).map fun p =>
      some { messageID := messageID
             fileName := p ++ "_" ++ base
             fileSize := fl
             mimeType := mime
             width := none
             height := none
             duration := some secs
             mediaKey := blobs.mediaKey
             directPath := blobs.directPath
             fileSHA256 := blobs.fileSHA256
             fileEncSHA256 := blobs.fileEncSHA256
             filePath := ""
             downloadStatus := getInitialDownloadStatus cfg mediaType fl fromHistory
             downloadTimestamp := none
             downloadError := "" }
  | .document blobs fl mime docName =>
    if docName = "" then
      (goSlicePre messageID 8).map fun p =>
        some { messageID := messageID
               fileName := "document_" ++ p ++ mimeToExtension mime
               fileSize := fl
               mimeType := mime
               width := none
               height := none
               duration := none
               mediaKey := blobs.mediaKey
               directPath := blobs.directPath
               fileSHA256 := blobs.fileSHA256
               fileEncSHA256 := blobs.fileEncSHA256
               filePath := ""
               downloadStatus := getInitialDownloadStatus cfg "document" fl fromHistory
               downloadTimestamp := none
               downloadError := "" }
    else
      some (some
        { messageID := messageID
          fileName := docName
          fileSize := fl
          mimeType := mime
          width := none
          height := none
          duration := none
          mediaKey := blobs.mediaKey
          directPath := blobs.directPath
          fileSHA256 := blobs.fileSHA256
          fileEncSHA256 := blobs.fileEncSHA256
          filePath := ""
          downloadStatus := getInitialDownloadStatus cfg "document" fl fromHistory
          downloadTimestamp := none
          downloadError := "" })

/-! ## Migration engine (migrations file: `Migrator`) -/

/-- A loaded migration file (`storage.Migration`), with its version parsed
from the `NNN_description.sql` name and `checksum` the hex SHA-256 of the
embedded file's bytes as computed by `loadMigrations`. -/
structure Migration where
  version : Nat
  description : String
  sqlText : String
  checksum : String
deriving Repr, DecidableEq

/-- A row of `schema_migrations`. -/
structure MigrationRecord where
  version : Nat
  description : String
  appliedAt : Int
  checksum : String
deriving Repr, DecidableEq

/-- `getCurrentVersion`: `SELECT COALESCE(MAX(version), 0)`. -/
def currentVersion (db : List MigrationRecord) : Nat :=
  db.foldl (fun acc r => max acc r.version) 0

/-- `SELECT checksum FROM schema_migrations WHERE version = ?`. -/
def lookupChecksum (db : List MigrationRecord) (v : Nat) : Option String :=
  (db.find? (fun r => r.version == v)).map (fun r => r.checksum)

/-- `validateAppliedMigrations`: every migration with version ≤ the current
version must have a recorded checksum equal to the loaded one; a missing row
or a mismatch produces an error (the first one found). -/
def validateAppliedMigrations (db : List MigrationRecord) (cur : Nat) :
    List Migration → Option String
  | [] => none
  | m :: rest =>
    if m.version > cur then validateAppliedMigrations db cur rest
    else
      match lookupChecksum db m.version with
      | none => some ("migration " ++ toString m.version ++
          " is missing from schema_migrations table")
      | some stored =>
        if stored ≠ m.checksum then
          some ("migration " ++ toString m.version ++
            " has been modified after being applied (checksum mismatch)")
        else validateAppliedMigrations db cur rest

/-- `applyMigration`: run the migration SQL and insert its record, in one
transaction. The SQL execution itself is abstracted as succeeding — the
claims below only concern the validation path, which runs before any apply. -/
def applyMigration (db : List MigrationRecord) (m : Migration) (now : Int) :
    List MigrationRecord :=
  db ++ [⟨m.version, m.description, now, m.checksum⟩]

/-- `Migrate` (migrations file): compute the current version from
`schema_migrations`, validate every already-applied migration's checksum,
and only then apply the pending migrations in order. Returns the error (if
any) and the resulting `schema_migrations` table. -/
def migrate (db : List MigrationRecord) (migrations : List Migration)
    (now : Int) : Option String × List MigrationRecord :=
  let cur := currentVersion db
  match validateAppliedMigrations db cur migrations with
  | some e => (some ("migration validation failed: " ++ e), db)
  | none =>
    (none, (migrations.filter (fun m => m.version > cur)).foldl
      (fun d m => applyMigration d m now) db)

/-! ## History-sync push-name collection (whatsapp/handlers.go
`handleHistorySync`) -/

/-- One entry of a HistorySync event's `Pushnames` list. -/
structure HistoryPushname where
  jid : String
  pushname : String
deriving Repr, DecidableEq

/-- Go map assignment `m[k] = v` on an association list. -/
def mapSet : List (String × String) → String → String → List (String × String)
  | [], k, v => [(k, v)]
  | (k', v') :: rest, k, v =>
    if k' = k then (k, v) :: rest else (k', v') :: mapSet rest k v

/-- The handler's merge condition:
`pushname.GetPushname() != "" && pushname.GetPushname() != "-"`. -/
def keptPushname (e : HistoryPushname) : Bool :=
  e.pushname != "" && e.pushname != "-"

/-- The push-name loop of `handleHistorySync`: entries passing the
condition are written both into the in-memory `pushNameMap` and into
`newPushNames` (the map subsequently persisted with `SavePushNames`);
all other entries are skipped. -/
def collectHistoryPushnames : List HistoryPushname →
    List (String × String) → List (String × String) →
    List (String × String) × List (String × String)
  | [], pushNameMap, newPushNames => (pushNameMap, newPushNames)
  | e :: rest, pushNameMap, newPushNames =>
    if keptPushname e then
      collectHistoryPushnames rest (mapSet pushNameMap e.jid e.pushname)
        (mapSet newPushNames e.jid e.pushname)
    else collectHistoryPushnames rest pushNameMap newPushNames

-- Helper lemmas about the chat merge fold.

theorem mergeChat_jid (stored c : Chat) : (mergeChat stored c).jid = stored.jid := rfl

theorem foldl_mergeChat_jid (row : Chat) (cs : List Chat) :
    (cs.foldl mergeChat row).jid = row.jid := by
  induction cs generalizing row with
  | nil => rfl
  | cons c rest ih => simpa [List.foldl_cons, mergeChat_jid] using ih (mergeChat row c)

theorem foldl_mergeChat_pushName (row : Chat) (cs : List Chat) :
    (cs.foldl mergeChat row).pushName =
      (cs.map Chat.pushName).foldl coalesceNonEmpty row.pushName := by
  induction cs generalizing row with
  | nil => rfl
  | cons c rest ih => simpa [List.foldl_cons, mergeChat] using ih (mergeChat row c)

theorem foldl_mergeChat_contactName (row : Chat) (cs : List Chat) :
    (cs.foldl mergeChat row).contactName =
      (cs.map Chat.contactName).foldl coalesceNonEmpty row.contactName := by
  induction cs generalizing row with
  | nil => rfl
  | cons c rest ih => simpa [List.foldl_cons, mergeChat] using ih (mergeChat row c)

theorem foldl_mergeChat_time (row : Chat) (cs : List Chat) (h : cs ≠ []) :
    (cs.foldl mergeChat row).lastMessageTime = (cs.getLast h).lastMessageTime := by
  induction cs generalizing row with
  | nil => exact absurd rfl h
  | cons c rest ih =>
    cases rest with
    | nil => rfl
    | cons d ds => simpa [List.foldl_cons] using ih (mergeChat row c) (by simp)

theorem saveChatAll_single_row (row : Chat) (cs : List Chat)
    (hj : row.jid ≠ "") (hall : ∀ c ∈ cs, c.jid = row.jid) :
    saveChatAll [row] cs = .ok [cs.foldl mergeChat row] := by
  induction cs generalizing row with
  | nil => rfl
  | cons c rest ih =>
    have hc : c.jid = row.jid := hall c (by simp)
    have hstep : saveChat [row] c = .ok [mergeChat row c] := by
      simp [saveChat, hc, hj, upsertChat]
    have hrest : ∀ d ∈ rest, d.jid = (mergeChat row c).jid := by
      intro d hd
      simpa [mergeChat_jid] using hall d (by simp [hd])
    calc saveChatAll [row] (c :: rest)
        = saveChatAll [mergeChat row c] rest := by
          simp only [saveChatAll, List.foldlM_cons, hstep]
          rfl
      _ = .ok [rest.foldl mergeChat (mergeChat row c)] :=
          ih (mergeChat row c) (by simpa [mergeChat_jid] using hj) hrest
      _ = .ok [(c :: rest).foldl mergeChat row] := by simp [List.foldl_cons]

theorem finalChatRow_eq (j : String) (hj : j ≠ "") (c : Chat) (cs : List Chat)
    (hall : ∀ d ∈ c :: cs, d.jid = j) :
    finalChatRow (c :: cs) j = some (cs.foldl mergeChat c) := by
  have hc : c.jid = j := hall c (by simp)
  have h1 : saveChat [] c = .ok [c] := by
    simp [saveChat, hc, hj, upsertChat]
  have hrest : ∀ d ∈ cs, d.jid = c.jid := by
    intro d hd
    rw [hc]; exact hall d (by simp [hd])
  have h2 := saveChatAll_single_row c cs (by simpa [hc] using hj) hrest
  have hrun : saveChatAll [] (c :: cs) = .ok [cs.foldl mergeChat c] := by
    simpa [saveChatAll, List.foldlM_cons, h1] using h2
  have hjid : (cs.foldl mergeChat c).jid = j := by
    rw [foldl_mergeChat_jid]; exact hc
  simp [finalChatRow, hrun, getChatByJID, List.find?, hjid]

theorem foldl_coalesce_eq_find (init : String) (vs : List String) :
    vs.foldl coalesceNonEmpty init =
      match vs.reverse.find? (fun v => v != "") with
      | some v => v
      | none => init := by
  induction vs using List.reverseRecOn with
  | nil => simp
  | append_singleton xs x ih =>
    by_cases hx : x = ""
    · simp [hx, List.foldl_append, coalesceNonEmpty, ih]
    · simp [List.foldl_append, coalesceNonEmpty, hx]

theorem specMergedName_cons (v : String) (vs : List String) :
    specMergedName (v :: vs) = vs.foldl coalesceNonEmpty v := by
  rw [foldl_coalesce_eq_find]
  unfold specMergedName
  rw [List.reverse_cons, List.find?_append]
  cases hfind : vs.reverse.find? (fun w => w != "") with
  | some w => simp [hfind]
  | none =>
    by_cases hv : v = "" <;> simp [hfind, hv, Option.orElse]

/-! ### Claims C1 and C5: `SaveChat` merge behaviour -/

/-- C5: after a non-empty sequence of `save_chat` upserts for one canonical
JID, the stored `push_name` (resp. `contact_name`) is the last non-empty
value supplied for that field, or the initially supplied value when no
non-empty value was supplied; an empty supplied value never overwrites a
stored non-empty one. -/
theorem c5_saveChat_names_last_nonempty (j : String) (c : Chat) (cs : List Chat)
    (hj : j ≠ "") (hall : ∀ d ∈ c :: cs, d.jid = j) :
    (finalChatRow (c :: cs) j).map Chat.pushName =
      some (specMergedName ((c :: cs).map Chat.pushName)) ∧
    (finalChatRow (c :: cs) j).map Chat.contactName =
      some (specMergedName ((c :: cs).map Chat.contactName)) := by
  have h := finalChatRow_eq j hj c cs hall
  refine ⟨?_, ?_⟩
  · rw [h, Option.map_some', List.map_cons, specMergedName_cons,
      foldl_mergeChat_pushName]
  · rw [h, Option.map_some', List.map_cons, specMergedName_cons,
      foldl_mergeChat_contactName]

/-- Witness for C5 at a concrete sequence: names supplied
("Maria", ""), ("", "Mom"), ("", "") merge to ("Maria", "Mom"). -/
theorem c5_saveChat_names_last_nonempty_witness :
    (finalChatRow
        [⟨"5511999999999@s.whatsapp.net", "Maria", "", 100, 0, false⟩,
         ⟨"5511999999999@s.whatsapp.net", "", "Mom", 200, 0, false⟩,
         ⟨"5511999999999@s.whatsapp.net", "", "", 300, 0, false⟩]
        "5511999999999@s.whatsapp.net").map Chat.pushName =
      some (specMergedName
        (List.map Chat.pushName
          [⟨"5511999999999@s.whatsapp.net", "Maria", "", 100, 0, false⟩,
           ⟨"5511999999999@s.whatsapp.net", "", "Mom", 200, 0, false⟩,
           ⟨"5511999999999@s.whatsapp.net", "", "", 300, 0, false⟩])) ∧
    (finalChatRow
        [⟨"5511999999999@s.whatsapp.net", "Maria", "", 100, 0, false⟩,
         ⟨"5511999999999@s.whatsapp.net", "", "Mom", 200, 0, false⟩,
         ⟨"5511999999999@s.whatsapp.net", "", "", 300, 0, false⟩]
        "5511999999999@s.whatsapp.net").map Chat.contactName =
      some (specMergedName
        (List.map Chat.contactName
          [⟨"5511999999999@s.whatsapp.net", "Maria", "", 100, 0, false⟩,
           ⟨"5511999999999@s.whatsapp.net", "", "Mom", 200, 0, false⟩,
           ⟨"5511999999999@s.whatsapp.net", "", "", 300, 0, false⟩])) :=
  c5_saveChat_names_last_nonempty "5511999999999@s.whatsapp.net" _ _
    (by decide) (by decide)

/-- C1 counterexample: `SaveChat` overwrites `last_message_time`
unconditionally (`last_message_time = excluded.last_message_time`), so a
save carrying time 5 after a save carrying time 10 stores 5, not the
maximum 10 that the claim requires. -/
theorem c1_counterexample :
    ¬ ((finalChatRow
        [⟨"5511999999999@s.whatsapp.net", "", "", 10, 0, false⟩,
         ⟨"5511999999999@s.whatsapp.net", "", "", 5, 0, false⟩]
        "5511999999999@s.whatsapp.net").map Chat.lastMessageTime =
      some (specMaxTime
        [⟨"5511999999999@s.whatsapp.net", "", "", 10, 0, false⟩,
         ⟨"5511999999999@s.whatsapp.net", "", "", 5, 0, false⟩])) := by
  decide

/-- C1 (amended): after a non-empty sequence of `save_chat` upserts for one
canonical JID, the stored `last_message_time` equals the time supplied by the
LAST upsert of the sequence (last writer wins), not the maximum; in
particular an upsert carrying an earlier time than the stored one replaces
the stored time. -/
theorem c1_saveChat_time_last_writer_wins (j : String) (c : Chat) (cs : List Chat)
    (hj : j ≠ "") (hall : ∀ d ∈ c :: cs, d.jid = j) :
    (finalChatRow (c :: cs) j).map Chat.lastMessageTime =
      some (((c :: cs).getLast (by simp)).lastMessageTime) := by
  rw [finalChatRow_eq j hj c cs hall, Option.map_some']
  cases cs with
  | nil => rfl
  | cons d ds =>
    rw [foldl_mergeChat_time c (d :: ds) (by simp)]
    congr 1

/-- Witness for the amended C1 at the counterexample input: the stored time
after supplying 10 then 5 is 5 (the last value written). -/
theorem c1_saveChat_time_last_writer_wins_witness :
    (finalChatRow
        [⟨"5511999999999@s.whatsapp.net", "", "", 10, 0, false⟩,
         ⟨"5511999999999@s.whatsapp.net", "", "", 5, 0, false⟩]
        "5511999999999@s.whatsapp.net").map Chat.lastMessageTime =
      some ((
        [⟨"5511999999999@s.whatsapp.net", "", "", 10, 0, false⟩,
         ⟨"5511999999999@s.whatsapp.net", "", "", 5, 0, false⟩] :
          List Chat).getLast (by simp)).lastMessageTime :=
  c1_saveChat_time_last_writer_wins "5511999999999@s.whatsapp.net" _ _
    (by decide) (by decide)

/-! ### Sorting lemmas (for `ORDER BY ... DESC`) -/

theorem insertDescBy_perm (key : α → Int) (a : α) (l : List α) :
    (insertDescBy key a l).Perm (a :: l) := by
  induction l with
  | nil => exact List.Perm.refl _
  | cons b bs ih =>
    unfold insertDescBy
    by_cases h : key b < key a
    · simp [h]
    · simp only [h, if_false]
      exact ((ih.cons b).trans (List.Perm.swap a b bs))

theorem sortDescBy_perm (key : α → Int) (l : List α) :
    (sortDescBy key l).Perm l := by
  induction l with
  | nil => exact List.Perm.refl _
  | cons x xs ih =>
    have h1 : sortDescBy key (x :: xs) = insertDescBy key x (sortDescBy key xs) := rfl
    rw [h1]
    exact (insertDescBy_perm key x (sortDescBy key xs)).trans (ih.cons x)

theorem insertDescBy_pairwise (key : α → Int) (a : α) (l : List α)
    (h : List.Pairwise (fun x y => key y ≤ key x) l) :
    List.Pairwise (fun x y => key y ≤ key x) (insertDescBy key a l) := by
  induction l with
  | nil => simp [insertDescBy]
  | cons b bs ih =>
    rw [List.pairwise_cons] at h
    obtain ⟨hb, hbs⟩ := h
    unfold insertDescBy
    by_cases hlt : key b < key a
    · simp only [hlt, if_true]
      refine List.Pairwise.cons ?_ (List.Pairwise.cons hb hbs)
      intro y hy
      rcases List.mem_cons.mp hy with rfl | hy'
      · exact le_of_lt hlt
      · exact le_trans (hb y hy') (le_of_lt hlt)
    · simp only [hlt, if_false]
      refine List.Pairwise.cons ?_ (ih hbs)
      intro y hy
      have hy' : y ∈ a :: bs := (insertDescBy_perm key a bs).mem_iff.mp hy
      rcases List.mem_cons.mp hy' with rfl | hy''
      · exact le_of_not_lt hlt
      · exact hb y hy''

theorem sortDescBy_pairwise (key : α → Int) (l : List α) :
    List.Pairwise (fun x y => key y ≤ key x) (sortDescBy key l) := by
  induction l with
  | nil => simp [sortDescBy]
  | cons x xs ih => exact insertDescBy_pairwise key x (sortDescBy key xs) ih

theorem sortDescBy_length (key : α → Int) (l : List α) :
    (sortDescBy key l).length = l.length :=
  (sortDescBy_perm key l).length_eq

/-! ### `LIKE` matching lemmas -/

theorem tailsList_any_isEmpty (s : List Char) :
    (tailsList s).any (fun t => t.isEmpty) = true := by
  induction s with
  | nil => rfl
  | cons c t ih => simp [tailsList, ih]

theorem likeMatch_single_pct (s : List Char) : likeMatch ['%'] s = true := by
  have h : likeMatch ['%'] s = (tailsList s).any (fun t => likeMatch [] t) := by
    simp [likeMatch]
  rw [h]
  have h2 : (fun t => likeMatch ([] : List Char) t) = fun t : List Char => t.isEmpty := by
    funext t; simp [likeMatch]
  rw [h2]
  exact tailsList_any_isEmpty s

theorem likeMatch_pct_pct (s : List Char) : likeMatch ['%', '%'] s = true := by
  have h : likeMatch ['%', '%'] s = (tailsList s).any (fun t => likeMatch ['%'] t) := by
    simp [likeMatch]
  rw [h]
  cases hs : tailsList s with
  | nil => cases s <;> simp [tailsList] at hs
  | cons hd tl => simp [likeMatch_single_pct]

theorem likeMatch_append_pct (needle : List Char)
    (hmeta : ∀ c ∈ needle, c ≠ '%' ∧ c ≠ '_') (s : List Char) :
    likeMatch (needle ++ ['%']) s = startsWithCI needle s := by
  induction needle generalizing s with
  | nil => simpa [startsWithCI] using likeMatch_single_pct s
  | cons a as ih =>
    have ha := hmeta a (by simp)
    have hrest : ∀ x ∈ as, x ≠ '%' ∧ x ≠ '_' := fun x hx => hmeta x (by simp [hx])
    cases s with
    | nil => simp [likeMatch, startsWithCI, ha.1]
    | cons c s' => simp [likeMatch, startsWithCI, ha.1, ha.2, ih hrest]

theorem substrCI_eq_any (needle s : List Char) :
    substrCI needle s = (tailsList s).any (fun t => startsWithCI needle t) := by
  induction s with
  | nil => cases needle <;> simp [substrCI, tailsList, startsWithCI]
  | cons c t ih => simp [substrCI, tailsList, ih]

theorem likeMatch_wrap (needle : List Char)
    (hmeta : ∀ c ∈ needle, c ≠ '%' ∧ c ≠ '_') (s : List Char) :
    likeMatch ('%' :: (needle ++ ['%'])) s = substrCI needle s := by
  rw [substrCI_eq_any]
  simp [likeMatch, likeMatch_append_pct needle hmeta]

theorem likeStr_wrap (needle : String) (h : noLikeMeta needle) (s : String) :
    likeStr ("%" ++ needle ++ "%") s = containsCI needle s := by
  unfold likeStr containsCI
  have hdata : ("%" ++ needle ++ "%").data = '%' :: (needle.data ++ ['%']) := by
    simp [String.data_append]
  rw [hdata, likeMatch_wrap needle.data h s.data]

theorem likeStr_empty_pattern (s : String) : likeStr ("%" ++ "" ++ "%") s = true := by
  unfold likeStr
  have hdata : ("%" ++ "" ++ "%").data = ['%', '%'] := rfl
  rw [hdata]
  exact likeMatch_pct_pct s.data

/-! ### Claim C2: cross-chat search and the absent sender filter -/

/-- C2 counterexample: `SearchMessagesWithNames` takes only a text query and
a limit; there is no sender filter anywhere in the search path, and the
`search_messages` tool requires `query`. Invoking the search with an empty
query (the closest rendering of "no text query") returns the messages of
every sender, so the result is not the set of messages of sender
`alice@s.whatsapp.net`: the message from `bob@s.whatsapp.net` is returned
too. -/
theorem c2_counterexample :
    searchMessagesWithNames "" 50 c2ExampleDB ≠
        messagesFromSender "alice@s.whatsapp.net" c2ExampleDB ∧
      (searchMessagesWithNames "" 50 c2ExampleDB).map
          (fun m => m.senderJID) =
        ["bob@s.whatsapp.net", "alice@s.whatsapp.net"] := by
  decide

/-- C2 (amended): the cross-chat search has no sender filter; with an empty
query it returns every persisted message regardless of sender (the `LIKE`
pattern `%%` matches all texts), ordered by timestamp descending, whenever
the limit covers the table. -/
theorem c2_search_empty_query_returns_all (db : List MessageWithNames)
    (lim : Nat) (h : db.length ≤ lim) :
    (searchMessagesWithNames "" lim db).Perm db ∧
      List.Pairwise (fun a b => b.timestamp ≤ a.timestamp)
        (searchMessagesWithNames "" lim db) := by
  have hfilter : db.filter (fun m => likeStr ("%" ++ "" ++ "%") m.text) = db := by
    apply List.filter_eq_self.mpr
    intro a _
    exact likeStr_empty_pattern a.text
  unfold searchMessagesWithNames
  rw [hfilter]
  have hlen : (sortDescBy (fun m => m.timestamp) db).length = db.length :=
    sortDescBy_length _ _
  rw [List.take_of_length_le (by rw [hlen]; exact h)]
  exact ⟨sortDescBy_perm _ _, sortDescBy_pairwise _ _⟩

/-- Witness for the amended C2 at the two-sender example table. -/
theorem c2_search_empty_query_returns_all_witness :
    (searchMessagesWithNames "" 50 c2ExampleDB).Perm c2ExampleDB ∧
      List.Pairwise (fun a b => b.timestamp ≤ a.timestamp)
        (searchMessagesWithNames "" 50 c2ExampleDB) :=
  c2_search_empty_query_returns_all c2ExampleDB 50 (by decide)

/-! ### Claim C6: `find_chat` pattern semantics -/

/-- C6 counterexample: `handleFindChat` always calls the `LIKE`-based
`SearchChats` (the glob-capable `SearchChatsFiltered` has no caller), so the
pattern `"Tech*"` is matched as a literal case-insensitive substring.
Against the chats named "Tech Team", "tech team" and "Support" it returns
nothing, not "Tech Team" as the claim requires. -/
theorem c6_counterexample :
    ¬ ((handleFindChat "Tech*" findChatExample).map Chat.pushName =
        ["Tech Team"]) := by
  decide

/-- C6 (amended): `find_chat` never treats its pattern as a glob: for every
pattern free of the SQL `LIKE` metacharacters `%`/`_` (which includes every
pattern containing `*`, `?` or `[`), it returns exactly the chats whose
`push_name`, `contact_name` or `jid` contains the pattern as a
case-insensitive substring, newest first, capped at 100. In particular
`find_chat("Tech*")` on the example chats returns nothing and
`find_chat("tech")` returns both "Tech Team" and "tech team". -/
theorem c6_find_chat_always_substring (search : String) (h : noLikeMeta search)
    (db : List Chat) :
    handleFindChat search db =
      (sortDescBy (fun c => c.lastMessageTime)
        (db.filter (chatMatchesCI search))).take 100 := by
  unfold handleFindChat searchChats
  have hf : chatMatchesLike ("%" ++ search ++ "%") = chatMatchesCI search := by
    funext c
    unfold chatMatchesLike chatMatchesCI
    rw [likeStr_wrap search h, likeStr_wrap search h, likeStr_wrap search h]
  rw [hf]

/-- Witness for the amended C6 at the glob-scenario chats, together with the
concrete outcomes of the two scenario searches. -/
theorem c6_find_chat_always_substring_witness :
    (handleFindChat "Tech*" findChatExample =
        (sortDescBy (fun c => c.lastMessageTime)
          (findChatExample.filter (chatMatchesCI "Tech*"))).take 100) ∧
      (handleFindChat "Tech*" findChatExample = []) ∧
      ((handleFindChat "tech" findChatExample).map Chat.pushName =
        ["Tech Team", "tech team"]) :=
  ⟨c6_find_chat_always_substring "Tech*" (by decide) findChatExample,
    by decide, by decide⟩

/-! ### Claim C4: webhook payload id per (event, webhook) -/

/-- C4 counterexample: `EmitMessageEvent` calls `buildMessagePayload` (and
so `uuid.New()`) exactly once, before the loop over webhooks, and enqueues
the SAME payload for every subscribed webhook. With two active webhooks the
two enqueued tasks carry the same payload `id`, so ids are not distinct per
(event, webhook) pair. -/
theorem c4_counterexample :
    ¬ List.Pairwise (fun t u => t.payload.id ≠ u.payload.id)
        (emitMessageEvent [c4Webhook1, c4Webhook2] c4ExampleMessage
          "6f1c0000-0000-0000-0000-000000000001" 0) ∧
      (emitMessageEvent [c4Webhook1, c4Webhook2] c4ExampleMessage
          "6f1c0000-0000-0000-0000-000000000001" 0).map
        (fun t => t.webhook.id) = ["wh-1", "wh-2"] := by
  constructor
  · decide
  · decide

/-- C4 (amended): one fresh UUID is generated per emitted event and shared
by every webhook receiving that event: every task enqueued by
`EmitMessageEvent` carries the single UUID generated for the event, so two
webhooks receiving the same event receive payloads with the SAME id (the id
is fresh per event, not per (event, webhook) pair). -/
theorem c4_payload_id_shared_per_event (webhooks : List WebhookRegistration)
    (msg : MessageWithNames) (freshUUID : String) (now : Int)
    (t : DeliveryTask) (ht : t ∈ emitMessageEvent webhooks msg freshUUID now) :
    t.payload.id = freshUUID := by
  unfold emitMessageEvent at ht
  simp only [List.mem_map] at ht
  obtain ⟨w, hw, rfl⟩ := ht
  rfl

/-- Witness for the amended C4 at the two-webhook example. -/
theorem c4_payload_id_shared_per_event_witness :
    (⟨c4Webhook1,
        buildMessagePayload c4ExampleMessage
          "6f1c0000-0000-0000-0000-000000000001" 0, 1⟩ :
      DeliveryTask).payload.id = "6f1c0000-0000-0000-0000-000000000001" :=
  c4_payload_id_shared_per_event [c4Webhook1, c4Webhook2] c4ExampleMessage
    "6f1c0000-0000-0000-0000-000000000001" 0 _ (by decide)

/-! ### Claim C7: webhook retry cap -/

/-- C7 counterexample: `LoadConfig` only caps `MaxRetries` from above at the
backoff-table length; with `WEBHOOK_MAX_RETRIES=0` the loaded `MaxRetries`
is 0, yet the initial delivery attempt is always made and recorded, so one
attempt is recorded while `min(max_retries, len(retry_backoff)) = 0`. -/
theorem c7_counterexample :
    ¬ ((deliveryAttempts (loadConfig "" (some 0) none none)
          (fun _ => false) : Int) ≤
        min (loadConfig "" (some 0) none none).maxRetries
          ((loadConfig "" (some 0) none none).retryBackoffSecs.length : Int)) := by
  have h1 : deliveryAttempts (loadConfig "" (some 0) none none)
      (fun _ => false) = 1 := by
    unfold deliveryAttempts
    rw [deliveryAttemptsFrom]
    norm_num [loadConfig, getEnvIntOr]
  rw [h1]
  norm_num [loadConfig, getEnvIntOr]

theorem deliveryAttemptsFrom_le (cfg : WebhookConfig) (succeeds : Nat → Bool) :
    ∀ (n a : Nat), cfg.retryBackoffSecs.length - a ≤ n → 1 ≤ a →
      (deliveryAttemptsFrom cfg succeeds a : Int) ≤
        max 1 (min cfg.maxRetries (cfg.retryBackoffSecs.length : Int) + 1 - a) := by
  intro n
  induction n with
  | zero =>
    intro a hn _
    rw [deliveryAttemptsFrom]
    split_ifs with h1 h2
    · exact le_max_left 1 _
    · exfalso
      have : (a : Int) < (cfg.retryBackoffSecs.length : Int) := h2.2
      omega
    · exact le_max_left 1 _
  | succ n ih =>
    intro a hn ha
    rw [deliveryAttemptsFrom]
    split_ifs with h1 h2
    · exact le_max_left 1 _
    · have hrec := ih (a + 1) (by omega) (by omega)
      have hmr : (a : Int) < cfg.maxRetries := h2.1
      have hlen : (a : Int) < (cfg.retryBackoffSecs.length : Int) := h2.2
      push_cast
      push_cast at hrec
      omega
    · exact le_max_left 1 _

/-- C7 (amended): for a configuration produced by `LoadConfig`, at most
`max(1, min(max_retries, len(retry_backoff)))` delivery attempts are ever
recorded for a (webhook, event) pair — the first attempt is always recorded,
and a retry is scheduled only while `attempt < max_retries` and
`attempt < len(retry_backoff)`; in particular the claimed bound
`min(max_retries, len(retry_backoff))` holds whenever `max_retries ≥ 1`
(e.g. for the default of 3). -/
theorem c7_retry_cap (envURL : String)
    (envMaxRetries envTimeout envPool : Option Int) (succeeds : Nat → Bool) :
    (deliveryAttempts (loadConfig envURL envMaxRetries envTimeout envPool)
        succeeds : Int) ≤
      max 1 (min (loadConfig envURL envMaxRetries envTimeout envPool).maxRetries
        ((loadConfig envURL envMaxRetries envTimeout
          envPool).retryBackoffSecs.length : Int)) := by
  have h := deliveryAttemptsFrom_le
    (loadConfig envURL envMaxRetries envTimeout envPool) succeeds
    (loadConfig envURL envMaxRetries envTimeout envPool).retryBackoffSecs.length
    1 (by omega) (le_refl 1)
  simpa using h

/-! ### Claim C3: resource-gone media downloads -/

/-- C3: evaluation at the failing input. A download whose first attempt
fails with the protocol's 404 "resource gone" error makes exactly one
attempt (no retry — that half of the claim holds), but the handler then
compares `err.Error()` against the literal `"media expired or deleted"`,
a string no error on this path ever carries (the library error reads
"download failed with status code 404"), so the `MediaMetadata` row is set
to `"failed"`, not `"expired"` as the claim requires. -/
theorem c3_gone_error_one_attempt_but_failed_status :
    downloadMediaWithRetry (fun _ => some .e404) = (1, some .e404) ∧
      mediaStatusAfterDownload
        (downloadMediaWithRetry (fun _ => some .e404)).2 = "failed" ∧
      downloadErrMessage .e404 ≠ "media expired or deleted" := by
  have h : downloadMediaWithRetry (fun _ => some .e404) = (1, some .e404) := by
    unfold downloadMediaWithRetry
    rw [downloadMediaAttempts]
    simp [isGoneErr]
  refine ⟨h, ?_, by decide⟩
  rw [h]
  decide

/-! ### Claim C9: unguarded `messageID[:8]` slices -/

/-- C9: for a protocol message ID shorter than 8 characters, the sticker and
audio branches of `extractMediaMetadata` evaluate `messageID[:8]` without a
bounds check and panic (modelled as `none`), while the image and video
branches guard the slice with `min(8, len(messageID))` and always succeed. -/
theorem c9_short_id_panics_on_sticker_audio (cfg : MediaConfig)
    (messageID : String) (h : messageID.length < 8) (fromHistory : Bool)
    (blobs : MediaBlobs) (fl : Int) (mime : String) (w ht secs : Int)
    (ptt : Bool) :
    extractMediaMetadata cfg (.sticker blobs fl mime w ht) messageID
        fromHistory = none ∧
      extractMediaMetadata cfg (.audio blobs fl mime secs ptt) messageID
        fromHistory = none ∧
      (extractMediaMetadata cfg (.image blobs fl mime w ht) messageID
        fromHistory).isSome ∧
      (extractMediaMetadata cfg (.video blobs fl mime w ht secs) messageID
        fromHistory).isSome := by
  have h8 : ¬ (8 ≤ messageID.length) := by omega
  refine ⟨?_, ?_, ?_, ?_⟩ <;>
    simp [extractMediaMetadata, goSlicePre, h8]

/-- Witness for C9 at the 3-character message ID `"abc"`. -/
theorem c9_short_id_panics_on_sticker_audio_witness :
    extractMediaMetadata ⟨true, false, 10485760, ["image", "audio", "sticker"], "media"⟩
        (.sticker ⟨"k", "d", "s", "e"⟩ 42 "image/webp" 512 512) "abc" false = none ∧
      extractMediaMetadata ⟨true, false, 10485760, ["image", "audio", "sticker"], "media"⟩
        (.audio ⟨"k", "d", "s", "e"⟩ 42 "audio/ogg" 7 true) "abc" false = none ∧
      (extractMediaMetadata ⟨true, false, 10485760, ["image", "audio", "sticker"], "media"⟩
        (.image ⟨"k", "d", "s", "e"⟩ 42 "image/jpeg" 512 512) "abc" false).isSome ∧
      (extractMediaMetadata ⟨true, false, 10485760, ["image", "audio", "sticker"], "media"⟩
        (.video ⟨"k", "d", "s", "e"⟩ 42 "video/mp4" 512 512 7) "abc" false).isSome :=
  c9_short_id_panics_on_sticker_audio
    ⟨true, false, 10485760, ["image", "audio", "sticker"], "media"⟩ "abc"
    (by decide) false ⟨"k", "d", "s", "e"⟩ 42 "image/webp" 512 512 7 true

/-! ### Claim C8: migration checksum guard -/

theorem validateAppliedMigrations_isSome_of_bad (db : List MigrationRecord)
    (cur : Nat) :
    ∀ migs : List Migration,
      (∃ m ∈ migs, m.version ≤ cur ∧
        lookupChecksum db m.version ≠ some m.checksum) →
      (validateAppliedMigrations db cur migs).isSome := by
  intro migs
  induction migs with
  | nil => rintro ⟨m, hm, -⟩; simp at hm
  | cons x rest ih =>
    rintro ⟨m, hm, hle, hck⟩
    unfold validateAppliedMigrations
    rcases List.mem_cons.mp hm with rfl | hmem
    · have hgt : ¬ m.version > cur := by omega
      simp only [hgt, if_false]
      cases hlc : lookupChecksum db m.version with
      | none => simp
      | some stored =>
        have hne : stored ≠ m.checksum := by
          intro he
          exact hck (by rw [hlc, he])
        simp [hne]
    · by_cases hx : x.version > cur
      · simp only [hx, if_true]
        exact ih ⟨m, hmem, hle, hck⟩
      · simp only [hx, if_false]
        cases hlc : lookupChecksum db x.version with
        | none => simp
        | some stored =>
          by_cases hst : stored ≠ x.checksum
          · simp [hst]
          · simp only [hst, if_false]
            exact ih ⟨m, hmem, hle, hck⟩

/-- C8: if some migration with version ≤ the highest applied version has no
recorded checksum row or a recorded checksum different from the SHA-256 of
the embedded file's bytes, then `Migrate` returns an error, and — because
validation runs before any `applyMigration` — the `schema_migrations` table
is left exactly as it was: the run applies no migration at all. -/
theorem c8_checksum_guard_fails_before_apply (db : List MigrationRecord)
    (migrations : List Migration) (now : Int)
    (h : ∃ m ∈ migrations, m.version ≤ currentVersion db ∧
      lookupChecksum db m.version ≠ some m.checksum) :
    (migrate db migrations now).1.isSome ∧
      (migrate db migrations now).2 = db := by
  have hv := validateAppliedMigrations_isSome_of_bad db (currentVersion db)
    migrations h
  obtain ⟨e, he⟩ := Option.isSome_iff_exists.mp hv
  constructor <;> simp [migrate, he]

/-- Witness for C8: a mutated version-1 migration (stored checksum `"aaa"`,
embedded checksum `"bbb"`) makes `Migrate` fail and leave the table alone. -/
theorem c8_checksum_guard_fails_before_apply_witness :
    (migrate [⟨1, "initial schema", 100, "aaa"⟩]
        [⟨1, "initial schema", "CREATE TABLE chats (jid TEXT);", "bbb"⟩]
        200).1.isSome ∧
      (migrate [⟨1, "initial schema", 100, "aaa"⟩]
        [⟨1, "initial schema", "CREATE TABLE chats (jid TEXT);", "bbb"⟩]
        200).2 = [⟨1, "initial schema", 100, "aaa"⟩] :=
  c8_checksum_guard_fails_before_apply [⟨1, "initial schema", 100, "aaa"⟩]
    [⟨1, "initial schema", "CREATE TABLE chats (jid TEXT);", "bbb"⟩] 200
    (by decide)

/-! ### Claim C10: history-sync push-name filtering -/

/-- C10: the push-name loop of `handleHistorySync` behaves exactly as if the
event's `Pushnames` list had been pre-filtered to the entries whose name is
non-empty and different from `"-"`: entries with name `""` or `"-"` are
never merged into the in-memory map and never reach the persisted
`newPushNames` map. -/
theorem c10_history_pushnames_filtered (entries : List HistoryPushname)
    (pushNameMap newPushNames : List (String × String)) :
    collectHistoryPushnames entries pushNameMap newPushNames =
      collectHistoryPushnames (entries.filter keptPushname)
        pushNameMap newPushNames := by
  induction entries generalizing pushNameMap newPushNames with
  | nil => rfl
  | cons e rest ih =>
    by_cases h : keptPushname e = true
    · calc collectHistoryPushnames (e :: rest) pushNameMap newPushNames
          = collectHistoryPushnames rest (mapSet pushNameMap e.jid e.pushname)
              (mapSet newPushNames e.jid e.pushname) := by
            simp only [collectHistoryPushnames, h, if_true]
        _ = collectHistoryPushnames (rest.filter keptPushname)
              (mapSet pushNameMap e.jid e.pushname)
              (mapSet newPushNames e.jid e.pushname) := ih _ _
        _ = collectHistoryPushnames ((e :: rest).filter keptPushname)
              pushNameMap newPushNames := by
            rw [List.filter_cons]
            simp only [h, if_true, collectHistoryPushnames]
    · have h' : keptPushname e = false := by
        cases hk : keptPushname e
        · rfl
        · exact absurd hk h
      calc collectHistoryPushnames (e :: rest) pushNameMap newPushNames
          = collectHistoryPushnames rest pushNameMap newPushNames := by
            simp only [collectHistoryPushnames, h', Bool.false_eq_true, if_false]
        _ = collectHistoryPushnames (rest.filter keptPushname)
              pushNameMap newPushNames := ih _ _
        _ = collectHistoryPushnames ((e :: rest).filter keptPushname)
              pushNameMap newPushNames := by
            rw [List.filter_cons]
            simp only [h', Bool.false_eq_true, if_false]
